import Mathlib

/-!
Verification of the two core functions of the multinomial power-analysis
notebook: `sum_of_relative_squared_differences` (the chi-squared-like test
statistic) and `power` (Monte-Carlo power estimation).

Numbers are modelled over `ℚ`.  The external numerical primitives that the
notebook takes from scipy — the multinomial sampler `sp.stats.multinomial.rvs`
(which reads and advances the global random-number-generator state) and the
chi-squared cumulative distribution function `sp.stats.chi2.cdf` — are
modelled as explicit oracles: the sampler as a stream of draws together with
a cursor into that stream, the CDF as a function argument.
-/

namespace MultinomialPower

/-- The test statistic from the notebook:
`expect = p * n; return np.sum((expect - x)**2 / expect)`.
Elementwise over the category axis, as numpy computes it. -/
def sum_of_relative_squared_differences (x : List ℚ) (n : ℚ) (p : List ℚ) : ℚ :=
  let expect := p.map (fun pi => pi * n)
  (List.zipWith (fun e xi => (e - xi) ^ 2 / e) expect x).sum

/-- The vector of expected counts `expect = p * n` appearing in the body of
`sum_of_relative_squared_differences`. -/
def expected_counts (n : ℚ) (p : List ℚ) : List ℚ :=
  p.map (fun pi => pi * n)

/-- Modelled from the spec: a validating variant of the test statistic,
following the error-handling words of the spec ("if stricter validation is
desired, it should reject ... with a clear failure rather than silently
producing NaN").  It signals `none` exactly when some expected count is
zero, i.e. when a division in the unchecked formula has a zero denominator;
the source itself contains no such guard. -/
def srsd_checked (x : List ℚ) (n : ℚ) (p : List ℚ) : Option ℚ :=
  if (expected_counts n p).all (fun e => decide (e ≠ 0)) then
    some (sum_of_relative_squared_differences x n p)
  else
    none

/-- Closed form of the zipWith sum underlying the statistic. -/
lemma zipWith_term_sum (p x : List ℚ) (n : ℚ) (h : p.length = x.length) :
    (List.zipWith (fun e xi => (e - xi) ^ 2 / e) (p.map (fun pi => pi * n)) x).sum
      = ∑ i ∈ Finset.range p.length,
          (p.getD i 0 * n - x.getD i 0) ^ 2 / (p.getD i 0 * n) := by
  induction p generalizing x with
  | nil => simp
  | cons ph pt ih =>
    cases x with
    | nil => simp at h
    | cons xh xt =>
      simp only [List.map_cons, List.zipWith_cons_cons, List.sum_cons, List.length_cons]
      rw [Finset.sum_range_succ']
      simp only [List.getD_cons_zero, List.getD_cons_succ]
      rw [ih xt (by simpa using h), add_comm]

/-- The statistic of a `k`-category observation, written over `Fin k`
functions, equals the indexed sum of relative squared differences. -/
lemma srsd_ofFn (k : ℕ) (x p : Fin k → ℚ) (n : ℚ) :
    sum_of_relative_squared_differences (List.ofFn x) n (List.ofFn p)
      = ∑ i : Fin k, (p i * n - x i) ^ 2 / (p i * n) := by
  unfold sum_of_relative_squared_differences
  rw [zipWith_term_sum _ _ _ (by simp)]
  rw [List.length_ofFn, Finset.sum_range fun i => _]
  · apply Finset.sum_congr rfl
    intro i _
    simp [List.getD_eq_getElem?_getD, List.getElem?_ofFn, i.isLt]

/-- The state of the pseudo-random sampler.  Modelled from the spec:
`sp.stats.multinomial.rvs` is an external "multinomial random-sampling
primitive" supplied by a numerical library; it reads the global generator
state and advances it.  The stream `draws t` is the count vector the
generator would emit at time `t`; `cursor` is the current position of the
global state in that stream. -/
structure RngState where
  draws : ℕ → List ℕ
  cursor : ℕ

/-- Modelled from the spec: `sp.stats.multinomial.rvs(n, p, size)` — draws
`size` count vectors from the generator and advances the global state by
`size` positions.  The distributional content (multinomial with parameters
`n`, `p`) lives in the external library and is abstracted into the stream. -/
def multinomial_rvs (n : ℕ) (p : List ℚ) (size : ℕ) (st : RngState) :
    List (List ℕ) × RngState :=
  ((List.range size).map (fun j => st.draws (st.cursor + j)),
   ⟨st.draws, st.cursor + size⟩)

/-- The power function from the notebook, with the two external numerical
primitives made explicit: `chi2cdf s df` stands for `sp.stats.chi2.cdf`
(degrees of freedom as a Python integer, hence `ℤ`), and the sampler state
is threaded explicitly.  Mirrors:
```
def power(p, n, alpha=0.05, p_null=None, nsim=1000):
    k = p.shape[0]
    if p_null is None:
        p_null = np.ones_like(p) / k
    x_sim = sp.stats.multinomial.rvs(n, p, size=nsim)
    df = k - 1
    statistic_sim = [sum_of_relative_squared_differences(y, n, p_null) for y in x_sim]
    pvalue_sim = 1 - sp.stats.chi2.cdf(statistic_sim, df)
    return (pvalue_sim < alpha).mean()
```
-/
def power (p : List ℚ) (n : ℕ) (alpha : ℚ) (p_null : Option (List ℚ))
    (nsim : ℕ) (chi2cdf : ℚ → ℤ → ℚ) (st : RngState) : ℚ × RngState :=
  let k := p.length
  let pnull := match p_null with
    | none => (List.replicate k (1 : ℚ)).map (fun o => o / (k : ℚ))
    | some q => q
  let res := multinomial_rvs n p nsim st
  let x_sim := res.1
  let df : ℤ := (k : ℤ) - 1
  let statistic_sim := x_sim.map (fun y =>
    sum_of_relative_squared_differences (y.map (fun c => (c : ℚ))) (n : ℚ) pnull)
  let pvalue_sim := statistic_sim.map (fun s => 1 - chi2cdf s df)
  (((pvalue_sim.filter (fun pv => decide (pv < alpha))).length : ℚ)
      / (pvalue_sim.length : ℚ),
   res.2)

/-- C1: for every observed count vector `x`, sample size `n`, and probability
vector `p` of the same length `k`, `sum_of_relative_squared_differences`
returns `∑ i, (expected_i - x_i)^2 / expected_i` with `expected_i = p_i * n`. -/
theorem srsd_formula (k : ℕ) (x p : Fin k → ℚ) (n : ℚ) :
    sum_of_relative_squared_differences (List.ofFn x) n (List.ofFn p)
      = ∑ i : Fin k, (p i * n - x i) ^ 2 / (p i * n) :=
  srsd_ofFn k x p n

/-- C6: the two concrete cases from the notebook: the statistic of
`[1,1,0,0]` with `n = 2` against the uniform null is exactly `2`, and of
`[2,0,0,0]` is exactly `6`. -/
theorem srsd_concrete_cases :
    sum_of_relative_squared_differences [1, 1, 0, 0] 2 [1/4, 1/4, 1/4, 1/4] = 2
    ∧ sum_of_relative_squared_differences [2, 0, 0, 0] 2 [1/4, 1/4, 1/4, 1/4] = 6 := by
  constructor <;> norm_num [sum_of_relative_squared_differences]

/-- C3: when `p_null` is absent, `power` uses the uniform distribution over
`k = len(p)` categories (each entry `1/k`) as the null probability vector. -/
theorem power_default_null_is_uniform (p : List ℚ) (n : ℕ) (alpha : ℚ)
    (nsim : ℕ) (chi2cdf : ℚ → ℤ → ℚ) (st : RngState) :
    power p n alpha none nsim chi2cdf st
      = power p n alpha (some (List.replicate p.length (1 / (p.length : ℚ))))
          nsim chi2cdf st := by
  simp [power, List.map_replicate]

/-- C2: `power` takes `nsim` draws from the sampler, scores each with
`sum_of_relative_squared_differences` against `p_null`, turns each score
into `1 - chi2cdf(score, k - 1)`, and returns the fraction of those `nsim`
p-values strictly below `alpha`. -/
theorem power_pipeline (p : List ℚ) (n : ℕ) (alpha : ℚ) (pnull : List ℚ)
    (nsim : ℕ) (chi2cdf : ℚ → ℤ → ℚ) (st : RngState) :
    (power p n alpha (some pnull) nsim chi2cdf st).1
      = (((List.range nsim).filter (fun j =>
            decide (1 - chi2cdf
              (sum_of_relative_squared_differences
                ((st.draws (st.cursor + j)).map (fun c => (c : ℚ)))
                (n : ℚ) pnull)
              ((p.length : ℤ) - 1) < alpha))).length : ℚ) / (nsim : ℚ) := by
  simp [power, multinomial_rvs, List.filter_map, Function.comp_def]

/-- C4: applying a permutation of the category indices consistently to both
the observed counts and the null probabilities leaves the test statistic
unchanged, whenever every expected count is positive. -/
theorem srsd_perm_invariant (k : ℕ) (x p : Fin k → ℚ) (n : ℚ)
    (σ : Equiv.Perm (Fin k)) (hpos : ∀ i, 0 < p i * n) :
    sum_of_relative_squared_differences
        (List.ofFn (fun i => x (σ i))) n (List.ofFn (fun i => p (σ i)))
      = sum_of_relative_squared_differences (List.ofFn x) n (List.ofFn p) := by
  rw [srsd_ofFn, srsd_ofFn]
  exact Equiv.sum_comp σ (fun i => (p i * n - x i) ^ 2 / (p i * n))

/-- Witness for C4: swapping the two categories of `x = (2, 0)` against the
null `p = (1/2, 1/2)` with `n = 2` leaves the statistic unchanged. -/
theorem srsd_perm_invariant_witness :
    sum_of_relative_squared_differences
        (List.ofFn (fun i => (![(2 : ℚ), 0]) (Equiv.swap 0 1 i))) 2
        (List.ofFn (fun i => (![(1 : ℚ)/2, 1/2]) (Equiv.swap 0 1 i)))
      = sum_of_relative_squared_differences
          (List.ofFn ![(2 : ℚ), 0]) 2 (List.ofFn ![(1 : ℚ)/2, 1/2]) :=
  srsd_perm_invariant 2 ![2, 0] ![1/2, 1/2] 2 (Equiv.swap 0 1)
    (by intro i; fin_cases i <;> norm_num)

/-- C5: with every expected count `p_i * n` strictly positive, the test
statistic vanishes exactly when the observation matches the expectation in
every category. -/
theorem srsd_zero_iff (k : ℕ) (x p : Fin k → ℚ) (n : ℚ)
    (hpos : ∀ i, 0 < p i * n) :
    sum_of_relative_squared_differences (List.ofFn x) n (List.ofFn p) = 0
      ↔ ∀ i, x i = p i * n := by
  rw [srsd_ofFn,
    Finset.sum_eq_zero_iff_of_nonneg
      (fun i _ => div_nonneg (sq_nonneg _) (hpos i).le)]
  constructor
  · intro h i
    have hi := h i (Finset.mem_univ i)
    rw [div_eq_zero_iff] at hi
    rcases hi with hz | hz
    · have hsub := sq_eq_zero_iff.mp hz
      linarith
    · exact absurd hz (hpos i).ne'
  · intro h i _
    rw [h i, sub_self]
    simp

/-- Witness for C5: for `x = (1, 1)`, `p = (1/2, 1/2)`, `n = 2`, the
statistic is zero exactly when each count equals its expectation. -/
theorem srsd_zero_iff_witness :
    sum_of_relative_squared_differences
        (List.ofFn ![(1 : ℚ), 1]) 2 (List.ofFn ![(1 : ℚ)/2, 1/2]) = 0
      ↔ ∀ i : Fin 2, (![(1 : ℚ), 1]) i = (![(1 : ℚ)/2, 1/2]) i * 2 :=
  srsd_zero_iff 2 ![1, 1] ![1/2, 1/2] 2 (by intro i; fin_cases i <;> norm_num)

/-- C7: the test statistic itself contains no input validation: the checked
variant signals `none` exactly when some expected count is zero (the
division-by-zero situation), while the unchecked function still returns a
value there; and under the precondition that every expected count is
positive, no denominator is zero and the checked and unchecked computations
agree. -/
theorem srsd_no_validation (x p : List ℚ) (n : ℚ) :
    (srsd_checked x n p = none ↔ ∃ e ∈ expected_counts n p, e = 0)
    ∧ ((∀ e ∈ expected_counts n p, 0 < e)
        → srsd_checked x n p
            = some (sum_of_relative_squared_differences x n p)) := by
  have hiff : ((expected_counts n p).all (fun e => decide (e ≠ 0)) = true)
      ↔ ∀ e ∈ expected_counts n p, e ≠ 0 := by
    simp [List.all_eq_true]
  constructor
  · rw [srsd_checked]
    by_cases hall : (expected_counts n p).all (fun e => decide (e ≠ 0)) = true
    · rw [if_pos hall]
      refine iff_of_false (Option.some_ne_none _) ?_
      rintro ⟨e, he, he0⟩
      exact (hiff.mp hall e he) he0
    · rw [if_neg hall]
      refine iff_of_true rfl ?_
      rw [hiff] at hall
      push_neg at hall
      obtain ⟨e, he, he0⟩ := hall
      exact ⟨e, he, he0⟩
  · intro hpos
    rw [srsd_checked, if_pos (hiff.mpr (fun e he => (hpos e he).ne'))]

/-- Witness for C7: on `x = (1, 0)`, `n = 2`, `p = (1/2, 1/2)` all expected
counts are positive and the checked variant agrees with the unchecked one. -/
theorem srsd_no_validation_witness :
    srsd_checked [1, 0] 2 [1/2, 1/2]
      = some (sum_of_relative_squared_differences [1, 0] 2 [1/2, 1/2]) :=
  (srsd_no_validation [1, 0] [1/2, 1/2] 2).2
    (by intro e he; simp [expected_counts] at he; rw [he]; norm_num)

/-- A concrete generator stream: first draw `(2, 0)`, then `(1, 1)` forever. -/
def cex_draws : ℕ → List ℕ := fun t => if t = 0 then [2, 0] else [1, 1]

/-- A concrete stand-in for the chi-squared CDF: the monotone step function
jumping from 0 to 1 at statistic value 1. -/
def cex_cdf : ℚ → ℤ → ℚ := fun s _ => if 1 ≤ s then 1 else 0

/-- Counterexample to C8: a call to `power` advances the sampler state, and
a second call with identical declared arguments, made from the state the
first call left behind, returns a different result.  So `power` is not a
pure function of its declared arguments: it reads and mutates the shared
generator state (the notebook itself points this out: "What happens each
time you re-run the function?"). -/
theorem power_not_pure :
    (power [1/2, 1/2] 2 (1/20) (some [1/2, 1/2]) 1 cex_cdf
        ⟨cex_draws, 0⟩).2 ≠ (⟨cex_draws, 0⟩ : RngState)
    ∧ (power [1/2, 1/2] 2 (1/20) (some [1/2, 1/2]) 1 cex_cdf
        (power [1/2, 1/2] 2 (1/20) (some [1/2, 1/2]) 1 cex_cdf
          ⟨cex_draws, 0⟩).2).1
      ≠ (power [1/2, 1/2] 2 (1/20) (some [1/2, 1/2]) 1 cex_cdf
          ⟨cex_draws, 0⟩).1 := by
  constructor
  · intro h
    have := congrArg RngState.cursor h
    simp [power, multinomial_rvs] at this
  · norm_num [power, multinomial_rvs, cex_draws, cex_cdf,
      sum_of_relative_squared_differences, List.range_succ]

/-- C8 as amended: `sum_of_relative_squared_differences` is pure, and
`power` is deterministic given the generator state: its result is a
function of the declared arguments and the `nsim` draws it consumes, and
its only effect on the shared state is advancing the cursor by `nsim`. -/
theorem power_deterministic_modulo_rng (p : List ℚ) (n : ℕ) (alpha : ℚ)
    (p_null : Option (List ℚ)) (nsim : ℕ) (chi2cdf : ℚ → ℤ → ℚ)
    (st₁ st₂ : RngState)
    (h : ∀ j < nsim, st₁.draws (st₁.cursor + j) = st₂.draws (st₂.cursor + j)) :
    (power p n alpha p_null nsim chi2cdf st₁).1
      = (power p n alpha p_null nsim chi2cdf st₂).1
    ∧ (power p n alpha p_null nsim chi2cdf st₁).2
      = ⟨st₁.draws, st₁.cursor + nsim⟩ := by
  have hx : (List.range nsim).map (fun j => st₁.draws (st₁.cursor + j))
      = (List.range nsim).map (fun j => st₂.draws (st₂.cursor + j)) :=
    List.map_congr_left (fun j hj => h j (List.mem_range.mp hj))
  constructor
  · simp only [power, multinomial_rvs]
    rw [hx]
  · rfl

/-- Witness for the amended C8: two states whose streams agree on the
consumed positions give the same power estimate, and the state effect is
the cursor advancing. -/
theorem power_deterministic_modulo_rng_witness :
    (power [1/2, 1/2] 2 (1/20) none 1 cex_cdf ⟨cex_draws, 0⟩).1
      = (power [1/2, 1/2] 2 (1/20) none 1 cex_cdf
          ⟨fun t => cex_draws (t - 3), 3⟩).1
    ∧ (power [1/2, 1/2] 2 (1/20) none 1 cex_cdf ⟨cex_draws, 0⟩).2
      = ⟨cex_draws, 0 + 1⟩ :=
  power_deterministic_modulo_rng [1/2, 1/2] 2 (1/20) none 1 cex_cdf
    ⟨cex_draws, 0⟩ ⟨fun t => cex_draws (t - 3), 3⟩
    (by intro j hj; simp)

/-- C10: the degrees of freedom passed to the chi-squared CDF are
`len(p) - 1`, computed from the true distribution `p` alone: the result of
`power` depends on the CDF only through its values at `len(p) - 1`, for any
supplied `p_null` of any length. -/
theorem power_df_from_p_only (p : List ℚ) (n : ℕ) (alpha : ℚ)
    (pnull : List ℚ) (nsim : ℕ) (cdf₁ cdf₂ : ℚ → ℤ → ℚ) (st : RngState)
    (h : ∀ s, cdf₁ s ((p.length : ℤ) - 1) = cdf₂ s ((p.length : ℤ) - 1)) :
    power p n alpha (some pnull) nsim cdf₁ st
      = power p n alpha (some pnull) nsim cdf₂ st := by
  have hmap : ∀ l : List ℚ,
      l.map (fun s => 1 - cdf₁ s ((p.length : ℤ) - 1))
        = l.map (fun s => 1 - cdf₂ s ((p.length : ℤ) - 1)) :=
    fun l => List.map_congr_left (fun a _ => by rw [h a])
  simp only [power, multinomial_rvs]
  rw [hmap]

/-- Witness for C10: with `p` of length 4 and a `p_null` of a different
length 2, two CDFs that agree at `df = 3` but differ everywhere else give
identical power results. -/
theorem power_df_from_p_only_witness :
    power [1/4, 1/4, 1/4, 1/4] 10 (1/20) (some [1/2, 1/2]) 3
        (fun s d => if d = 3 then s else 0) ⟨fun _ => [1, 1], 0⟩
      = power [1/4, 1/4, 1/4, 1/4] 10 (1/20) (some [1/2, 1/2]) 3
          (fun s d => if d = 3 then s else 1) ⟨fun _ => [1, 1], 0⟩ :=
  power_df_from_p_only [1/4, 1/4, 1/4, 1/4] 10 (1/20) [1/2, 1/2] 3
    (fun s d => if d = 3 then s else 0) (fun s d => if d = 3 then s else 1)
    ⟨fun _ => [1, 1], 0⟩ (by intro s; norm_num)

end MultinomialPower
